import Mathlib

/-
Verification of the permission and approval-workflow subsystem of the
portfolio backend: the authentication middleware, the page-by-action
permission checks, the sub-admin invitation lifecycle, and the
pending-request approval engine.  Shallow embedding: the Firestore
collections are lists of documents, time is an abstract Nat instant,
and the external identity verifier is an oracle input.
-/

namespace Portfolio

/-- Actions, from the Permission union type in types/index.ts. -/
inductive Permission where
  | VIEW
  | CREATE
  | UPDATE
  | DELETE
deriving DecidableEq

/-- Admin pages, from the AdminPage union type in types/index.ts. -/
inductive AdminPage where
  | dashboard
  | profile
  | about
  | skills
  | projects
  | education
  | experience
  | faqs
  | messages
deriving DecidableEq

/-- PagePermission interface: one page together with its granted actions. -/
structure PagePermission where
  page : AdminPage
  permissions : List Permission
deriving DecidableEq

/-- A SubAdmin document (collection subAdmins).  Dates are abstract Nat
instants; nullable fields are Option. -/
structure SubAdmin where
  id : String
  uid : String
  email : String
  name : Option String
  photoUrl : Option String
  invitedBy : String
  invitedByEmail : String
  isActive : Bool
  pagePermissions : List PagePermission
  createdAt : Nat
  lastLoginAt : Nat
  disabledAt : Option Nat
  disabledReason : Option String
deriving DecidableEq

/-- The identity produced by the external token verifier
(decodedToken.uid and decodedToken.email). -/
structure Identity where
  uid : String
  email : String
deriving DecidableEq

/-- JavaScript String.toLowerCase, modelled as ASCII lowering of each
character. -/
def toLowerStr (s : String) : String :=
  String.mk (s.data.map Char.toLower)

/-- The authorization-header shape check: startsWith of the Bearer
scheme, modelled over the character list. -/
def isBearerHeader (header : String) : Bool :=
  "Bearer ".data.isPrefixOf header.data

/-- Outcome of the authenticateWithPermissions middleware. noToken and
invalidToken are the two 401 responses, notAuthorized is the 403
response, and the two proceed constructors record the request fields
set before next() is called. -/
inductive AuthOutcome where
  | noToken
  | invalidToken
  | proceedCore (user : Identity)
  | proceedSub (user : Identity) (subAdmin : SubAdmin)
  | notAuthorized
deriving DecidableEq

/-- authenticateWithPermissions from middleware/permissions.ts.
Inputs beyond the request: the configured core admin email, the outcome
of auth.verifyIdToken (none when it throws), whether the awaited
lastLoginAt Firestore update succeeds (the update is inside the same
try/catch as token verification, so its failure lands in the catch
branch that answers 401 invalid token), the current time, and the
subAdmins collection.  Returns the outcome and the updated collection. -/
def authenticateWithPermissions (coreAdminEmail : String) (authHeader : Option String)
    (verified : Option Identity) (lastLoginWriteOk : Bool) (now : Nat)
    (subAdmins : List SubAdmin) : AuthOutcome × List SubAdmin :=
  match authHeader with
  | none => (.noToken, subAdmins)
  | some header =>
    if ¬ (isBearerHeader header) then (.noToken, subAdmins)
    else
      match verified with
      | none => (.invalidToken, subAdmins)
      | some decoded =>
        let userEmail := toLowerStr decoded.email
        let user : Identity := { uid := decoded.uid, email := userEmail }
        if userEmail = toLowerStr coreAdminEmail then (.proceedCore user, subAdmins)
        else
          -- query subAdmins where email == userEmail, then filter isActive client-side
          let matching := subAdmins.filter (fun s => decide (s.email = userEmail))
          match matching.find? (fun s => s.isActive) with
          | some sub =>
            if lastLoginWriteOk then
              (.proceedSub user sub,
               subAdmins.map (fun s =>
                 if s.id = sub.id then { s with lastLoginAt := now } else s))
            else
              -- await activeSubAdmin.ref.update threw: the catch answers 401
              (.invalidToken, subAdmins)
          | none => (.notAuthorized, subAdmins)

/-- The request-context fields that authenticateWithPermissions sets and
that the two permission middlewares read (isCoreAdmin, isSubAdmin,
permissions, subAdmin). -/
structure RequestContext where
  isCoreAdmin : Bool
  isSubAdmin : Bool
  permissions : Option (List PagePermission)
  subAdmin : Option SubAdmin
deriving DecidableEq

/-- The request context produced by each proceeding branch of
authenticateWithPermissions (none when the middleware responded
instead of calling next()). -/
def contextOfOutcome : AuthOutcome → Option RequestContext
  | .proceedCore _ =>
      some { isCoreAdmin := true, isSubAdmin := false, permissions := none, subAdmin := none }
  | .proceedSub _ sub =>
      some { isCoreAdmin := false, isSubAdmin := true,
             permissions := some sub.pagePermissions, subAdmin := some sub }
  | _ => none

/-- Result of the requirePermission middleware.  next means the check
passed; the other constructors are the distinct 403 responses, carrying
the structured data payload where the source sends one. -/
inductive PermissionCheckResult where
  | next
  | denyNoPermissions
  | denyView (page : AdminPage)
  | denyWrite (requiresApproval : Bool) (page : AdminPage) (permission : Permission)
  | needsApproval (requiresApproval : Bool) (page : AdminPage) (permission : Permission)
      (hasPermission : Bool)
deriving DecidableEq

/-- requirePermission from middleware/permissions.ts. -/
def requirePermission (page : AdminPage) (permission : Permission)
    (req : RequestContext) : PermissionCheckResult :=
  if req.isCoreAdmin then .next
  else if ¬ req.isSubAdmin ∨ req.permissions = none then .denyNoPermissions
  else
    let perms := req.permissions.getD []
    match perms.find? (fun p => decide (p.page = page)) with
    | none =>
      if permission = .VIEW then .denyView page
      else .denyWrite true page permission
    | some pagePermission =>
      if permission ∉ pagePermission.permissions then
        (if permission = .VIEW then .denyView page
         else .denyWrite true page permission)
      else if (permission = .UPDATE ∨ permission = .DELETE) ∧ req.isSubAdmin then
        .needsApproval true page permission true
      else .next

/-- hasPermission helper from middleware/permissions.ts. -/
def hasPermission (permissions : Option (List PagePermission)) (page : AdminPage)
    (permission : Permission) : Bool :=
  match permissions with
  | none => false
  | some ps =>
    match ps.find? (fun p => decide (p.page = page)) with
    | some pagePermission => permission ∈ pagePermission.permissions
    | none => false

/-- Result of the checkWritePermissionOrCreateRequest middleware. -/
inductive WriteCheckResult where
  | next
  | denyNoPermissions
  | denyRequestApproval (requiresApproval : Bool) (page : AdminPage)
      (permission : Permission) (subAdminId : String)
deriving DecidableEq

/-- Status of a pending request (RequestStatus in types/index.ts). -/
inductive RequestStatus where
  | pending
  | approved
  | rejected
deriving DecidableEq

/-- Action of a pending request (RequestAction in types/index.ts). -/
inductive RequestAction where
  | CREATE
  | UPDATE
  | DELETE
deriving DecidableEq

/-- The opaque mutation payload of a request (data in the source),
modelled by the three ways the execution dispatcher reads it: as opaque
field values to spread into a document, as a data.ids array for the
bulk message delete, and as a reorder payload with a collection name
and (id, order) items. -/
structure MutationData where
  fields : List (String × String)
  ids : Option (List String)
  reorderItems : Option (String × List (String × Nat))
deriving DecidableEq

/-- A PendingRequest document (collection pendingRequests). -/
structure PendingRequest where
  id : String
  subAdminId : String
  subAdminEmail : String
  subAdminName : Option String
  action : RequestAction
  resourceType : String
  resourceId : Option String
  resourceName : Option String
  page : AdminPage
  data : MutationData
  previousData : Option MutationData
  status : RequestStatus
  reason : Option String
  createdAt : Nat
  processedAt : Option Nat
  processedBy : Option String
  rejectionReason : Option String
deriving DecidableEq

/-- checkWritePermissionOrCreateRequest from middleware/permissions.ts.
The pendingRequests collection is threaded through unchanged on every
branch: the source middleware, despite its name, performs no write to
that collection (it only checks the nominal permission and, when it is
absent, answers 403 with a requiresApproval payload). -/
def checkWritePermissionOrCreateRequest (page : AdminPage) (permission : Permission)
    (req : RequestContext) (pendingRequests : List PendingRequest) :
    WriteCheckResult × List PendingRequest :=
  if req.isCoreAdmin then (.next, pendingRequests)
  else if ¬ req.isSubAdmin ∨ req.permissions = none ∨ req.subAdmin = none then
    (.denyNoPermissions, pendingRequests)
  else
    let perms := req.permissions.getD []
    let subAdminId := (req.subAdmin.map SubAdmin.id).getD ""
    match perms.find? (fun p => decide (p.page = page)) with
    | some pagePermission =>
      if permission ∈ pagePermission.permissions then (.next, pendingRequests)
      else (.denyRequestApproval true page permission subAdminId, pendingRequests)
    | none => (.denyRequestApproval true page permission subAdminId, pendingRequests)

/-- Status of an invitation (SubAdminInvitation.status in types/index.ts). -/
inductive InvitationStatus where
  | pending
  | accepted
  | rejected
  | expired
deriving DecidableEq

/-- A SubAdminInvitation document (collection adminInvitations). -/
structure SubAdminInvitation where
  id : String
  email : String
  invitedBy : String
  invitedByEmail : String
  status : InvitationStatus
  token : String
  expiresAt : Nat
  createdAt : Nat
  acceptedAt : Option Nat
  pagePermissions : List PagePermission
deriving DecidableEq

/-- The two collections the team routes operate on. -/
structure TeamState where
  invitations : List SubAdminInvitation
  subAdmins : List SubAdmin
deriving DecidableEq

/-- DEFAULT_VIEW_PERMISSIONS from routes (VIEW on every page). -/
def defaultViewPermissions : List PagePermission :=
  [ { page := .dashboard, permissions := [.VIEW] },
    { page := .profile, permissions := [.VIEW] },
    { page := .about, permissions := [.VIEW] },
    { page := .skills, permissions := [.VIEW] },
    { page := .projects, permissions := [.VIEW] },
    { page := .education, permissions := [.VIEW] },
    { page := .experience, permissions := [.VIEW] },
    { page := .faqs, permissions := [.VIEW] },
    { page := .messages, permissions := [.VIEW] } ]

/-- getExpirationDate: now plus the given number of days (time is
abstract, measured in days). -/
def getExpirationDate (now : Nat) (days : Nat) : Nat :=
  now + days

/-- Result of POST /api/team/invite. -/
inductive InviteResult where
  | cannotInviteCoreAdmin
  | alreadySubAdmin
  | invitationPending
  | created (invitation : SubAdminInvitation)
deriving DecidableEq

/-- The invitation document POST /api/team/invite persists: pending
status, the supplied token, expiry seven days out, and the requested
permissions or the VIEW defaults. -/
def mkInvitation (caller : Identity) (inviteeEmail : String)
    (pagePermissions : Option (List PagePermission)) (token : String) (newId : String)
    (now : Nat) : SubAdminInvitation :=
  { id := newId, email := inviteeEmail, invitedBy := caller.uid,
    invitedByEmail := caller.email, status := .pending, token := token,
    expiresAt := getExpirationDate now 7, createdAt := now, acceptedAt := none,
    pagePermissions := pagePermissions.getD defaultViewPermissions }

/-- POST /api/team/invite.  The schema-validated body is (email,
pagePermissions?); the generated random token, the Firestore document
id and the current time are inputs of the model. -/
def inviteSubAdmin (coreAdminEmail : String) (caller : Identity) (email : String)
    (pagePermissions : Option (List PagePermission)) (token : String) (newId : String)
    (now : Nat) (st : TeamState) : InviteResult × TeamState :=
  let inviteeEmail := toLowerStr email
  if inviteeEmail = toLowerStr coreAdminEmail then (.cannotInviteCoreAdmin, st)
  else if st.subAdmins.any (fun s => decide (s.email = inviteeEmail)) then
    (.alreadySubAdmin, st)
  else if st.invitations.any
      (fun i => decide (i.email = inviteeEmail ∧ i.status = .pending)) then
    (.invitationPending, st)
  else
    let invitation := mkInvitation caller inviteeEmail pagePermissions token newId now
    (.created invitation, { st with invitations := st.invitations ++ [invitation] })

/-- The lazy expiry side effect: invitationDoc.ref.update flipping
status to expired, modelled as an update of the document with the
given id. -/
def flipExpired (st : TeamState) (invId : String) : TeamState :=
  let update := fun (i : SubAdminInvitation) =>
    if i.id = invId then { i with status := .expired } else i
  { st with invitations := st.invitations.map update }

/-- Result of GET /api/team/invite/verify/:token. -/
inductive VerifyResult where
  | notFound
  | expired
  | ok (email : String) (invitedByEmail : String) (expiresAt : Nat)
      (pagePermissions : List PagePermission)
deriving DecidableEq

/-- GET /api/team/invite/verify/:token: public lookup of a pending
invitation by token, with lazy expiry. -/
def verifyInvitation (token : String) (now : Nat) (st : TeamState) :
    VerifyResult × TeamState :=
  match st.invitations.find?
      (fun i => decide (i.token = token ∧ i.status = .pending)) with
  | none => (.notFound, st)
  | some inv =>
    if inv.expiresAt < now then (.expired, flipExpired st inv.id)
    else (.ok inv.email inv.invitedByEmail inv.expiresAt inv.pagePermissions, st)

/-- Result of POST /api/team/invite/accept/:token. -/
inductive AcceptResult where
  | notFound
  | expired
  | emailMismatch
  | accepted (subAdmin : SubAdmin)
deriving DecidableEq

/-- The SubAdmin document POST /api/team/invite/accept/:token creates:
active, seeded with the invitation permissions and inviter, created
and last logged in now. -/
def mkSubAdmin (caller : Identity) (callerName callerPhotoUrl : Option String)
    (inv : SubAdminInvitation) (newSubAdminId : String) (now : Nat) : SubAdmin :=
  { id := newSubAdminId, uid := caller.uid, email := toLowerStr caller.email,
    name := callerName, photoUrl := callerPhotoUrl,
    invitedBy := inv.invitedBy, invitedByEmail := inv.invitedByEmail,
    isActive := true, pagePermissions := inv.pagePermissions,
    createdAt := now, lastLoginAt := now,
    disabledAt := none, disabledReason := none }

/-- POST /api/team/invite/accept/:token: accept a pending invitation.
The caller identity comes from authenticateToken; callerName and
callerPhotoUrl are the displayName/photoURL that auth.getUser returns;
the new SubAdmin document id and the current time are inputs. -/
def acceptInvitation (token : String) (caller : Identity)
    (callerName callerPhotoUrl : Option String) (newSubAdminId : String)
    (now : Nat) (st : TeamState) : AcceptResult × TeamState :=
  match st.invitations.find?
      (fun i => decide (i.token = token ∧ i.status = .pending)) with
  | none => (.notFound, st)
  | some inv =>
    if inv.expiresAt < now then (.expired, flipExpired st inv.id)
    else
      let userEmail := toLowerStr caller.email
      if userEmail ≠ toLowerStr inv.email then (.emailMismatch, st)
      else
        let subAdmin := mkSubAdmin caller callerName callerPhotoUrl inv newSubAdminId now
        (.accepted subAdmin,
         { invitations := st.invitations.map
             (fun i => if i.id = inv.id then
                 { i with status := .accepted, acceptedAt := some now } else i),
           subAdmins := st.subAdmins ++ [subAdmin] })

/-- JavaScript truthiness of an optional string: undefined and the
empty string are falsy. -/
def strPresent : Option String → Bool
  | none => false
  | some s => decide (s ≠ "")

/-- Keeps an optional string field only when truthy, mirroring the
conditional assignments that omit falsy optional fields from the
stored document. -/
def presentOrNone (o : Option String) : Option String :=
  if strPresent o then o else none

/-- The schema-validated body of POST /api/requests
(createRequestSchema). -/
structure CreateRequestBody where
  action : RequestAction
  resourceType : String
  resourceId : Option String
  resourceName : Option String
  page : AdminPage
  data : MutationData
  previousData : Option MutationData
  reason : Option String
deriving DecidableEq

/-- Result of POST /api/requests. -/
inductive SubmitResult where
  | coreAdminRejected
  | notSubAdmin
  | duplicate
  | created (request : PendingRequest)
deriving DecidableEq

/-- The duplicate check of POST /api/requests, applied to each of the
caller's pending requests: same action, resourceType and page, and
(when the submitted resourceId is truthy) the same resourceId.  When
the submitted resourceId is absent the resourceId clause
short-circuits to true. -/
def duplicateMatch (body : CreateRequestBody) (r : PendingRequest) : Bool :=
  decide (r.action = body.action) && decide (r.resourceType = body.resourceType) &&
    decide (r.page = body.page) &&
    (!(strPresent body.resourceId) || decide (r.resourceId = body.resourceId))

/-- POST /api/requests: a sub-admin submits a proposed mutation.  The
new document id and the current time are inputs of the model; the
result is the response plus the updated pendingRequests collection. -/
def submitRequest (isCoreAdmin isSubAdmin : Bool) (subAdmin : Option SubAdmin)
    (body : CreateRequestBody) (store : List PendingRequest) (newId : String)
    (now : Nat) : SubmitResult × List PendingRequest :=
  if isCoreAdmin then (.coreAdminRejected, store)
  else
    match subAdmin with
    | none => (.notSubAdmin, store)
    | some sa =>
      if ¬ isSubAdmin then (.notSubAdmin, store)
      else
        -- query pendingRequests where subAdminId == sa.id and status == pending
        let mine := store.filter
          (fun r => decide (r.subAdminId = sa.id) && decide (r.status = .pending))
        match mine.find? (duplicateMatch body) with
        | some _ => (.duplicate, store)
        | none =>
          let request : PendingRequest :=
            { id := newId, subAdminId := sa.id, subAdminEmail := sa.email,
              subAdminName := sa.name, action := body.action,
              resourceType := body.resourceType,
              resourceId := presentOrNone body.resourceId,
              resourceName := presentOrNone body.resourceName,
              page := body.page, data := body.data,
              previousData := body.previousData, status := .pending,
              reason := presentOrNone body.reason, createdAt := now,
              processedAt := none, processedBy := none, rejectionReason := none }
          (.created request, store ++ [request])

/-- The collectionMap lookup table of executeApprovedRequest, mapping a
generic resourceType to its Firestore collection. -/
def collectionMap : List (String × String) :=
  [ ("profile", "profile"), ("stat", "stats"), ("contactInfo", "contactInfo"),
    ("socialLink", "socialLinks"), ("skillCategory", "skillCategories"),
    ("additionalSkill", "additionalSkills"), ("toolTechnology", "toolsTechnologies"),
    ("project", "projects"), ("education", "education"),
    ("workExperience", "workExperience"), ("certification", "certifications"),
    ("coreValue", "coreValues"), ("interest", "interests"),
    ("learningGoal", "learningGoals"), ("funFact", "funFacts"),
    ("faq", "faqs"), ("message", "messages") ]

/-- The resourceType values with bespoke handling in
executeApprovedRequest, ahead of the generic collectionMap dispatch. -/
def specialResourceTypes : List String :=
  [ "aboutProfile", "cvUpload", "homeAvatarUpload", "aboutAvatarUpload",
    "homeAvatarCropUpdate", "aboutAvatarCropUpdate", "reorder" ]

/-- The outcome of executing an approved request. -/
structure ExecResult where
  success : Bool
  message : String
deriving DecidableEq

/-- executeApprovedRequest: dispatches the stored request on its
resourceType and action and reports a success flag and message.  The
writes against the resource store and the Cloudinary cleanup are
external side effects abstracted away; a store write that throws is
caught and reported as the generic failure message, and the generated
document id in the CREATE message is abstracted. -/
def executeApprovedRequest (request : PendingRequest) : ExecResult :=
  if request.resourceType = "aboutProfile" then
    if request.action = .UPDATE then
      { success := true, message := "Updated about profile content" }
    else { success := false, message := "Invalid action for aboutProfile" }
  else if request.resourceType = "cvUpload" then
    if request.action = .UPDATE then
      { success := true, message := "CV upload approved and applied" }
    else { success := false, message := "Invalid action for cvUpload" }
  else if request.resourceType = "homeAvatarUpload" then
    if request.action = .UPDATE then
      { success := true, message := "Home avatar upload approved and applied" }
    else { success := false, message := "Invalid action for homeAvatarUpload" }
  else if request.resourceType = "aboutAvatarUpload" then
    if request.action = .UPDATE then
      { success := true, message := "About avatar upload approved and applied" }
    else { success := false, message := "Invalid action for aboutAvatarUpload" }
  else if request.resourceType = "homeAvatarCropUpdate" then
    if request.action = .UPDATE then
      { success := true, message := "Home avatar crop settings approved and applied" }
    else { success := false, message := "Invalid action for homeAvatarCropUpdate" }
  else if request.resourceType = "aboutAvatarCropUpdate" then
    if request.action = .UPDATE then
      { success := true, message := "About avatar crop settings approved and applied" }
    else { success := false, message := "Invalid action for aboutAvatarCropUpdate" }
  else if request.resourceType = "reorder" then
    match request.data.reorderItems with
    | some (coll, items) =>
      { success := true,
        message := "Reordered " ++ toString items.length ++ " items in " ++ coll }
    | none =>
      -- a reorder payload of the wrong shape throws and lands in the catch
      { success := false, message := "Failed to execute request" }
  else
    match collectionMap.lookup request.resourceType with
    | none =>
      { success := false, message := "Unknown resource type: " ++ request.resourceType }
    | some _ =>
      match request.action with
      | .CREATE => { success := true, message := "Created " ++ request.resourceType }
      | .UPDATE =>
        match request.resourceId with
        | none => { success := false, message := "Resource ID required for update" }
        | some rid =>
          { success := true, message := "Updated " ++ request.resourceType ++ ": " ++ rid }
      | .DELETE =>
        match request.data.ids with
        | some ids =>
          if request.resourceType = "message" then
            { success := true, message := "Deleted " ++ toString ids.length ++ " messages" }
          else
            match request.resourceId with
            | none => { success := false, message := "Resource ID required for delete" }
            | some rid =>
              { success := true, message := "Deleted " ++ request.resourceType ++ ": " ++ rid }
        | none =>
          match request.resourceId with
          | none => { success := false, message := "Resource ID required for delete" }
          | some rid =>
            { success := true, message := "Deleted " ++ request.resourceType ++ ": " ++ rid }

/-- The decision of PUT /api/requests/:id/process
(processRequestSchema.status). -/
inductive Decision where
  | approved
  | rejected
deriving DecidableEq

/-- The RequestStatus a decision writes into the document. -/
def Decision.toStatus : Decision → RequestStatus
  | .approved => .approved
  | .rejected => .rejected

/-- Result of PUT /api/requests/:id/process. -/
inductive ProcessResult where
  | notFound
  | alreadyProcessed
  | processed (status : RequestStatus) (actionResult : Option ExecResult)
deriving DecidableEq

/-- The status-flip write of PUT /api/requests/:id/process
(requestRef.update): status, processedAt and processedBy, plus the
rejectionReason when rejecting with a truthy reason, applied to the
document with the given id. -/
def processUpdate (id : String) (decision : Decision) (rejectionReason : Option String)
    (processorUid : String) (now : Nat) (r : PendingRequest) : PendingRequest :=
  if r.id = id then
    { r with status := decision.toStatus, processedAt := some now, processedBy := some processorUid, rejectionReason := if decision = .rejected ∧ strPresent rejectionReason then rejectionReason else r.rejectionReason }
  else r

/-- PUT /api/requests/:id/process: the core admin approves or rejects a
request.  The status flip is written first; only then, on approval, is
the stored request executed, and the execution outcome is returned
without touching the already-written status. -/
def processRequest (store : List PendingRequest) (id : String) (decision : Decision)
    (rejectionReason : Option String) (processorUid : String) (now : Nat) :
    ProcessResult × List PendingRequest :=
  match store.find? (fun r => decide (r.id = id)) with
  | none => (.notFound, store)
  | some requestData =>
    if requestData.status ≠ .pending then (.alreadyProcessed, store)
    else
      let store' := store.map (processUpdate id decision rejectionReason processorUid now)
      let actionResult :=
        match decision with
        | .approved => some (executeApprovedRequest requestData)
        | .rejected => none
      (.processed decision.toStatus actionResult, store')

/-! Concrete fixtures used by witnesses and counterexamples. -/

/-- An empty mutation payload. -/
def emptyData : MutationData :=
  { fields := [], ids := none, reorderItems := none }

/-- An active sub-admin holding VIEW and UPDATE on the projects page. -/
def exSubAdmin : SubAdmin :=
  { id := "s1", uid := "u1", email := "sub@y.com", name := none, photoUrl := none,
    invitedBy := "c", invitedByEmail := "core@y.com", isActive := true,
    pagePermissions := [ { page := .projects, permissions := [.VIEW, .UPDATE] } ],
    createdAt := 0, lastLoginAt := 0, disabledAt := none, disabledReason := none }

/-- The same profile, disabled. -/
def exDisabledSubAdmin : SubAdmin :=
  { exSubAdmin with id := "s2", isActive := false, disabledAt := some 3, disabledReason := some "off" }

/-- The request context authenticateWithPermissions builds for exSubAdmin. -/
def exSubCtx : RequestContext :=
  { isCoreAdmin := false, isSubAdmin := true,
    permissions := some exSubAdmin.pagePermissions, subAdmin := some exSubAdmin }

/-- The request context authenticateWithPermissions builds for the core admin. -/
def exCoreCtx : RequestContext :=
  { isCoreAdmin := true, isSubAdmin := false, permissions := none, subAdmin := none }

/-- A schema-valid UPDATE submission for project p1. -/
def exBody : CreateRequestBody :=
  { action := .UPDATE, resourceType := "project", resourceId := some "p1",
    resourceName := none, page := .projects, data := emptyData,
    previousData := none, reason := none }

/-- A stored pending request of exSubAdmin with an unknown resourceType. -/
def exBogusRequest : PendingRequest :=
  { id := "r9", subAdminId := "s1", subAdminEmail := "sub@y.com", subAdminName := none,
    action := .UPDATE, resourceType := "bogus", resourceId := some "z",
    resourceName := none, page := .projects, data := emptyData, previousData := none,
    status := .pending, reason := none, createdAt := 0, processedAt := none,
    processedBy := none, rejectionReason := none }

/-- A stored pending UPDATE request of exSubAdmin for project p1. -/
def exStoredRequest : PendingRequest :=
  { exBogusRequest with id := "r1", resourceType := "project", resourceId := some "p1" }

/-- The request document the first exBody submission creates. -/
def exCreatedRequest : PendingRequest :=
  { exStoredRequest with createdAt := 10 }

/-- A pending invitation for x@y.com expiring at instant 7. -/
def exInvitation : SubAdminInvitation :=
  { id := "inv1", email := "x@y.com", invitedBy := "c", invitedByEmail := "core@y.com",
    status := .pending, token := "tok1", expiresAt := 7, createdAt := 0,
    acceptedAt := none, pagePermissions := defaultViewPermissions }

/-- A team state holding just exInvitation. -/
def exInvState : TeamState :=
  { invitations := [exInvitation], subAdmins := [] }

/-- A team state with no invitations and no sub-admins. -/
def emptyTeam : TeamState :=
  { invitations := [], subAdmins := [] }

end Portfolio

namespace Portfolio

/-! Helper lemmas shared by the claim theorems. -/

/-- find? over an appended singleton when every earlier element fails
the predicate. -/
theorem find?_append_singleton {α : Type} (l : List α) (x : α) (p : α → Bool)
    (h : ∀ a ∈ l, p a = false) :
    (l ++ [x]).find? p = if p x then some x else none := by
  rw [List.find?_append]
  have hl : l.find? p = none := List.find?_eq_none.mpr (fun a ha => by simp [h a ha])
  cases hpx : p x <;> simp [hl, List.find?, hpx]

/-- A submission matching one of the caller's stored pending requests
under the duplicate check is rejected as a duplicate, leaving the
collection unchanged. -/
theorem submit_duplicate_of_mem (sa : SubAdmin) (body : CreateRequestBody)
    (store : List PendingRequest) (r : PendingRequest) (newId : String) (now : Nat)
    (hMem : r ∈ store) (hOwn : r.subAdminId = sa.id) (hPend : r.status = .pending)
    (hdup : duplicateMatch body r = true) :
    submitRequest false true (some sa) body store newId now = (.duplicate, store) := by
  have hq : (decide (r.subAdminId = sa.id) && decide (r.status = .pending)) = true := by
    simp [hOwn, hPend]
  have hmem : r ∈ store.filter
      (fun x => decide (x.subAdminId = sa.id) && decide (x.status = .pending)) :=
    List.mem_filter.mpr ⟨hMem, hq⟩
  obtain ⟨d, hd⟩ := Option.isSome_iff_exists.mp (List.find?_isSome.mpr ⟨r, hmem, hdup⟩)
  simp only [submitRequest, Bool.false_eq_true, if_false, not_true, if_neg]
  rw [hd]

end Portfolio

namespace Portfolio

/-- C4: a caller the Authorization Resolver classifies as the Core
Administrator is allowed unconditionally by both permission middlewares
for every page and every action — including pages and actions with no
permission entry anywhere (the core context carries no permission
list) — and is never routed into the approval workflow (both checks
call next(), never a requires-approval response, and the
pendingRequests collection is untouched). -/
theorem coreAdmin_always_allowed (u : Identity) (ctx : RequestContext)
    (page : AdminPage) (permission : Permission) (store : List PendingRequest)
    (hCtx : contextOfOutcome (.proceedCore u) = some ctx) :
    requirePermission page permission ctx = .next
    ∧ checkWritePermissionOrCreateRequest page permission ctx store = (.next, store) := by
  simp only [contextOfOutcome, Option.some.injEq] at hCtx
  subst hCtx
  constructor
  · simp [requirePermission]
  · simp [checkWritePermissionOrCreateRequest]

/-- Witness for C4 at a concrete page and action with no entry anywhere. -/
theorem coreAdmin_always_allowed_witness :
    requirePermission .messages .DELETE exCoreCtx = .next
    ∧ checkWritePermissionOrCreateRequest .messages .DELETE exCoreCtx [] = (.next, []) :=
  coreAdmin_always_allowed { uid := "c", email := "core@y.com" } exCoreCtx
    .messages .DELETE [] (by rfl)

/-- C3: a Delegated Administrator whose permission entry for the page
contains the requested action is, for UPDATE and DELETE, denied the
direct write by requirePermission with the structured payload
requiresApproval = true, the page, the action, and hasPermission =
true, distinguishing it from the no-permission denial. -/
theorem requirePermission_update_delete_needs_approval (u : Identity) (sub : SubAdmin)
    (ctx : RequestContext) (page : AdminPage) (permission : Permission)
    (pp : PagePermission)
    (hCtx : contextOfOutcome (.proceedSub u sub) = some ctx)
    (hFind : sub.pagePermissions.find? (fun p => decide (p.page = page)) = some pp)
    (hHas : permission ∈ pp.permissions)
    (hWrite : permission = .UPDATE ∨ permission = .DELETE) :
    requirePermission page permission ctx = .needsApproval true page permission true := by
  simp only [contextOfOutcome, Option.some.injEq] at hCtx
  subst hCtx
  simp only [requirePermission]
  rw [if_neg (by simp), if_neg (by simp)]
  simp only [Option.getD_some, hFind]
  rw [if_neg (not_not_intro hHas), if_pos ⟨hWrite, trivial⟩]

/-- Witness for C3: exSubAdmin holds UPDATE on projects and is routed
to approval. -/
theorem requirePermission_update_delete_needs_approval_witness :
    requirePermission .projects .UPDATE exSubCtx
      = .needsApproval true .projects .UPDATE true :=
  requirePermission_update_delete_needs_approval
    { uid := "u1", email := "sub@y.com" } exSubAdmin exSubCtx .projects .UPDATE
    { page := .projects, permissions := [.VIEW, .UPDATE] }
    (by rfl) (by decide) (by decide) (Or.inl rfl)

/-- C1 counterexample: the claim says a Delegated Administrator holding
the UPDATE permission for projects has the write enqueued as a
PendingRequest (Enqueued) rather than allowed.  At this concrete
caller, checkWritePermissionOrCreateRequest calls next() — the write is
allowed — and the pendingRequests collection stays empty: no
PendingRequest is created and nothing is enqueued. -/
theorem checkWrite_enqueue_counterexample :
    checkWritePermissionOrCreateRequest .projects .UPDATE exSubCtx []
      = (.next, []) := by decide

/-- C1 amended: for every Delegated Administrator whose permission
entry for the page contains the requested action — UPDATE and DELETE
included — checkWritePermissionOrCreateRequest allows the write
directly (next()) and never creates a PendingRequest; despite its
name, the middleware performs no write to the pendingRequests
collection, and only a caller lacking the nominal permission is denied
(with a requiresApproval payload inviting a manual submission). -/
theorem checkWrite_nominal_permission_allows (u : Identity) (sub : SubAdmin)
    (ctx : RequestContext) (page : AdminPage) (permission : Permission)
    (pp : PagePermission) (store : List PendingRequest)
    (hCtx : contextOfOutcome (.proceedSub u sub) = some ctx)
    (hFind : sub.pagePermissions.find? (fun p => decide (p.page = page)) = some pp)
    (hHas : permission ∈ pp.permissions) :
    checkWritePermissionOrCreateRequest page permission ctx store = (.next, store) := by
  simp only [contextOfOutcome, Option.some.injEq] at hCtx
  subst hCtx
  simp only [checkWritePermissionOrCreateRequest]
  rw [if_neg (by simp)]
  simp [hFind, hHas]

/-- Witness for the C1 amendment at the concrete UPDATE-holding caller. -/
theorem checkWrite_nominal_permission_allows_witness :
    checkWritePermissionOrCreateRequest .projects .UPDATE exSubCtx [exBogusRequest]
      = (.next, [exBogusRequest]) :=
  checkWrite_nominal_permission_allows
    { uid := "u1", email := "sub@y.com" } exSubAdmin exSubCtx .projects .UPDATE
    { page := .projects, permissions := [.VIEW, .UPDATE] } [exBogusRequest]
    (by rfl) (by decide) (by decide)

end Portfolio

namespace Portfolio

/-- C5: an identity whose lowercased email differs from the core admin
email and whose SubAdmin row exists but has isActive = false resolves
to the 403 not-authorized response, never to a stale sub-admin role,
even though the credential verified and the row persists (the
collection is returned unchanged). -/
theorem disabledProfile_resolves_unauthorized (coreEmail header : String)
    (idy : Identity) (lastLoginWriteOk : Bool) (now : Nat) (store : List SubAdmin)
    (hB : isBearerHeader header = true)
    (hNotCore : toLowerStr idy.email ≠ toLowerStr coreEmail)
    (hRow : ∃ s ∈ store, s.email = toLowerStr idy.email)
    (hInactive : ∀ s ∈ store, s.email = toLowerStr idy.email → s.isActive = false) :
    authenticateWithPermissions coreEmail (some header) (some idy) lastLoginWriteOk
      now store = (.notAuthorized, store) := by
  have hfind :
      (store.filter (fun s => decide (s.email = toLowerStr idy.email))).find?
        (fun s => s.isActive) = none := by
    apply List.find?_eq_none.mpr
    intro s hs
    have hmem := List.mem_filter.mp hs
    have hemail : s.email = toLowerStr idy.email := by
      have := hmem.2
      simpa using this
    simp [hInactive s hmem.1 hemail]
  simp only [authenticateWithPermissions]
  rw [if_neg (by simp [hB]), if_neg hNotCore]
  simp [hfind]

/-- Witness for C5: a disabled profile row for the caller's email. -/
theorem disabledProfile_resolves_unauthorized_witness :
    authenticateWithPermissions "core@y.com" (some "Bearer t")
      (some { uid := "u1", email := "sub@y.com" }) true 5 [exDisabledSubAdmin]
      = (.notAuthorized, [exDisabledSubAdmin]) :=
  disabledProfile_resolves_unauthorized "core@y.com" "Bearer t"
    { uid := "u1", email := "sub@y.com" } true 5 [exDisabledSubAdmin]
    (by decide) (by decide)
    ⟨exDisabledSubAdmin, by decide⟩
    (by decide)

/-- C9 counterexample: the claim says a failure to persist lastLoginAt
must not fail the authentication request, which still proceeds with
the Delegated Administrator role.  At this concrete input — an active
sub-admin, a valid credential, and a failing lastLoginAt write — the
middleware answers the 401 invalid-token response instead of
proceeding, because the awaited update sits inside the token
verification try/catch. -/
theorem lastLogin_best_effort_counterexample :
    authenticateWithPermissions "core@y.com" (some "Bearer t")
      (some { uid := "u1", email := "sub@y.com" }) false 5 [exSubAdmin]
      = (.invalidToken, [exSubAdmin]) := by decide

/-- C9 amended: the lastLoginAt refresh is not best-effort — it is
awaited inside the same try/catch as token verification, so whenever
the Authorization Resolver classifies the caller as an active Delegated
Administrator, a failing lastLoginAt write makes the whole request fail
with the 401 invalid-token response (and the collection is unchanged),
while a succeeding write lets the request proceed with the
DelegatedAdministrator role. -/
theorem lastLogin_write_failure_fails_request (coreEmail header : String)
    (idy : Identity) (now : Nat) (store : List SubAdmin) (sub : SubAdmin)
    (hB : isBearerHeader header = true)
    (hNotCore : toLowerStr idy.email ≠ toLowerStr coreEmail)
    (hActive : (store.filter (fun s => decide (s.email = toLowerStr idy.email))).find?
        (fun s => s.isActive) = some sub) :
    authenticateWithPermissions coreEmail (some header) (some idy) false now store
      = (.invalidToken, store)
    ∧ (authenticateWithPermissions coreEmail (some header) (some idy) true now store).1
      = .proceedSub { uid := idy.uid, email := toLowerStr idy.email } sub := by
  constructor
  · simp only [authenticateWithPermissions]
    rw [if_neg (by simp [hB]), if_neg hNotCore]
    simp [hActive]
  · simp only [authenticateWithPermissions]
    rw [if_neg (by simp [hB]), if_neg hNotCore]
    simp [hActive]

/-- Witness for the C9 amendment at the concrete active sub-admin. -/
theorem lastLogin_write_failure_fails_request_witness :
    authenticateWithPermissions "core@y.com" (some "Bearer t")
      (some { uid := "u1", email := "sub@y.com" }) false 5 [exSubAdmin]
      = (.invalidToken, [exSubAdmin])
    ∧ (authenticateWithPermissions "core@y.com" (some "Bearer t")
        (some { uid := "u1", email := "sub@y.com" }) true 5 [exSubAdmin]).1
      = .proceedSub { uid := "u1", email := "sub@y.com" } exSubAdmin :=
  lastLogin_write_failure_fails_request "core@y.com" "Bearer t"
    { uid := "u1", email := "sub@y.com" } 5 [exSubAdmin] exSubAdmin
    (by decide) (by decide) (by decide)

end Portfolio

namespace Portfolio

/-- C7: a pending invitation whose expiresAt lies in the past makes
both verify and accept fail with the expired response, and — as a side
effect of the failed call — the stored invitation flips from pending to
expired (lazy expiry: the flip happens only on access). -/
theorem invitation_lazy_expiry (tok : String) (now : Nat) (st : TeamState)
    (inv : SubAdminInvitation) (caller : Identity) (nm ph : Option String)
    (sid : String)
    (hFind : st.invitations.find?
        (fun i => decide (i.token = tok ∧ i.status = .pending)) = some inv)
    (hExp : inv.expiresAt < now) :
    verifyInvitation tok now st = (.expired, flipExpired st inv.id)
    ∧ acceptInvitation tok caller nm ph sid now st = (.expired, flipExpired st inv.id)
    ∧ inv.status = .pending
    ∧ { inv with status := .expired } ∈ (flipExpired st inv.id).invitations := by
  have hp := List.find?_some hFind
  have hpend : inv.status = .pending := by
    simp only [decide_eq_true_eq] at hp
    exact hp.2
  refine ⟨?_, ?_, hpend, ?_⟩
  · simp only [verifyInvitation, hFind]
    rw [if_pos hExp]
  · simp only [acceptInvitation, hFind]
    rw [if_pos hExp]
  · have hmem := List.mem_of_find?_eq_some hFind
    have hmm := List.mem_map_of_mem
      (fun i => if i.id = inv.id then { i with status := InvitationStatus.expired } else i)
      hmem
    simpa [flipExpired] using hmm

/-- Witness for C7 at a concrete expired pending invitation. -/
theorem invitation_lazy_expiry_witness :
    verifyInvitation "tok1" 9 exInvState = (.expired, flipExpired exInvState "inv1") :=
  (invitation_lazy_expiry "tok1" 9 exInvState exInvitation
    { uid := "x", email := "x@y.com" } none none "s9" (by decide) (by decide)).1

/-- C8: a second submission by the same sub-admin with the identical
(subAdminId, action, resourceType, page, resourceId) tuple, made while
the first created request is still pending, is rejected as a duplicate
and the pendingRequests collection is left unchanged — no second
document is persisted. -/
theorem duplicate_submit_suppressed (sa : SubAdmin) (body : CreateRequestBody)
    (store store1 : List PendingRequest) (id1 id2 : String) (t1 t2 : Nat)
    (r1 : PendingRequest)
    (hFirst : submitRequest false true (some sa) body store id1 t1
      = (.created r1, store1)) :
    submitRequest false true (some sa) body store1 id2 t2 = (.duplicate, store1) := by
  simp only [submitRequest, Bool.false_eq_true, if_false, not_true, if_neg] at hFirst
  cases hfind : (store.filter
      (fun r => decide (r.subAdminId = sa.id) && decide (r.status = .pending))).find?
      (duplicateMatch body) with
  | some d =>
    rw [hfind] at hFirst
    exact absurd (congrArg Prod.fst hFirst) (by simp)
  | none =>
    rw [hfind] at hFirst
    injection hFirst with ha hb
    injection ha with ha
    have hOwn : r1.subAdminId = sa.id := by rw [← ha]
    have hPend : r1.status = .pending := by rw [← ha]
    have hAct : r1.action = body.action := by rw [← ha]
    have hRt : r1.resourceType = body.resourceType := by rw [← ha]
    have hPg : r1.page = body.page := by rw [← ha]
    have hRid : r1.resourceId = presentOrNone body.resourceId := by rw [← ha]
    rw [ha] at hb
    have hMem : r1 ∈ store1 := by
      rw [← hb]
      exact List.mem_append_right store (List.mem_singleton.mpr rfl)
    have hdup : duplicateMatch body r1 = true := by
      cases hrid : strPresent body.resourceId <;>
        simp [duplicateMatch, hAct, hRt, hPg, hRid, presentOrNone, hrid]
    exact submit_duplicate_of_mem sa body store1 r1 id2 t2 hMem hOwn hPend hdup

/-- Witness for C8: the same UPDATE-project submission twice. -/
theorem duplicate_submit_suppressed_witness :
    submitRequest false true (some exSubAdmin) exBody [exCreatedRequest] "r2" 11
      = (.duplicate, [exCreatedRequest]) :=
  duplicate_submit_suppressed exSubAdmin exBody [] [exCreatedRequest] "r1" "r2" 10 11
    exCreatedRequest (by decide)

/-- C10: a submission that omits resourceId is treated as a duplicate
of any of the caller's pending requests matching on (action,
resourceType, page), whatever those requests' resourceId values are —
the resourceId clause of the duplicate check short-circuits to true —
so it is rejected and nothing is persisted. -/
theorem submit_without_resourceId_is_duplicate (sa : SubAdmin)
    (body : CreateRequestBody) (store : List PendingRequest) (r : PendingRequest)
    (newId : String) (now : Nat)
    (hNoRid : body.resourceId = none)
    (hMem : r ∈ store) (hOwn : r.subAdminId = sa.id) (hPend : r.status = .pending)
    (hAct : r.action = body.action) (hRt : r.resourceType = body.resourceType)
    (hPg : r.page = body.page) :
    submitRequest false true (some sa) body store newId now = (.duplicate, store) := by
  have hq : (decide (r.subAdminId = sa.id) && decide (r.status = .pending)) = true := by
    simp [hOwn, hPend]
  have hmem : r ∈ store.filter
      (fun x => decide (x.subAdminId = sa.id) && decide (x.status = .pending)) :=
    List.mem_filter.mpr ⟨hMem, hq⟩
  have hdup : duplicateMatch body r = true := by
    simp [duplicateMatch, hAct, hRt, hPg, hNoRid, strPresent]
  obtain ⟨d, hd⟩ := Option.isSome_iff_exists.mp (List.find?_isSome.mpr ⟨r, hmem, hdup⟩)
  simp only [submitRequest, Bool.false_eq_true, if_false, not_true, if_neg]
  rw [hd]

/-- Witness for C10: a pending UPDATE for project p1 blocks a second
UPDATE-project submission that carries no resourceId. -/
theorem submit_without_resourceId_is_duplicate_witness :
    submitRequest false true (some exSubAdmin)
      { exBody with resourceId := none } [exStoredRequest] "r2" 11
      = (.duplicate, [exStoredRequest]) :=
  submit_without_resourceId_is_duplicate exSubAdmin
    { exBody with resourceId := none } [exStoredRequest] exStoredRequest "r2" 11
    rfl (List.mem_singleton.mpr rfl) rfl rfl rfl rfl rfl

/-- C2: processing is exactly-once — a request whose status is not
pending is rejected as already processed with the collection unchanged
— and approval is committed before execution: on approving a pending
request, the stored document is flipped to approved with processedAt
and processedBy set, the execution outcome of the stored request is
returned alongside, and a failed execution (in particular an unknown
resourceType, which yields a failure outcome with its message) leaves
the approved status in place — there is no rollback. -/
theorem process_exactly_once_no_rollback (store : List PendingRequest) (id : String)
    (decision : Decision) (rr : Option String) (uid : String) (now : Nat)
    (r : PendingRequest)
    (hFind : store.find? (fun x => decide (x.id = id)) = some r) :
    (r.status ≠ .pending →
      processRequest store id decision rr uid now = (.alreadyProcessed, store))
    ∧ (r.status = .pending →
        (processRequest store id .approved rr uid now).1
          = .processed .approved (some (executeApprovedRequest r))
        ∧ ∀ x ∈ (processRequest store id .approved rr uid now).2, x.id = id →
            x.status = .approved ∧ x.processedAt = some now ∧ x.processedBy = some uid)
    ∧ (r.resourceType ∉ specialResourceTypes →
        collectionMap.lookup r.resourceType = none →
        (executeApprovedRequest r).success = false
        ∧ (executeApprovedRequest r).message
            = "Unknown resource type: " ++ r.resourceType) := by
  refine ⟨?_, ?_, ?_⟩
  · intro hne
    simp [processRequest, hFind, hne]
  · intro hpend
    have h2 : (processRequest store id .approved rr uid now).2
        = store.map (processUpdate id .approved rr uid now) := by
      simp [processRequest, hFind, hpend]
    constructor
    · simp [processRequest, hFind, hpend, Decision.toStatus]
    · intro x hx hxid
      rw [h2] at hx
      obtain ⟨a, ha, rfl⟩ := List.mem_map.mp hx
      by_cases hid : a.id = id
      · simp [processUpdate, hid, Decision.toStatus]
      · exfalso
        apply hid
        simpa [processUpdate, hid] using hxid
  · intro hns hlk
    simp only [specialResourceTypes, List.mem_cons, List.not_mem_nil, or_false] at hns
    push_neg at hns
    obtain ⟨n1, n2, n3, n4, n5, n6, n7⟩ := hns
    simp [executeApprovedRequest, n1, n2, n3, n4, n5, n6, n7, hlk]

/-- Witness for C2 at a pending request with unknown resourceType. -/
theorem process_exactly_once_no_rollback_witness :
    (processRequest [exBogusRequest] "r9" .approved none "c" 20).1
      = .processed .approved (some (executeApprovedRequest exBogusRequest))
    ∧ (executeApprovedRequest exBogusRequest).success = false := by
  have h := process_exactly_once_no_rollback [exBogusRequest] "r9" .approved none "c" 20
    exBogusRequest (by decide)
  exact ⟨(h.2.1 (by decide)).1, (h.2.2 (by decide) (by decide)).1⟩

end Portfolio

namespace Portfolio

/-- C6: the invitation round-trip.  After a successful invite of an
email, verify on the token reports the same email and permission set;
accept by an authenticated caller whose lowercased email equals the
invitation email creates exactly one SubAdmin profile seeded with
those permissions and isActive = true and flips the invitation to
accepted; a second accept on the same token then fails with NotFound
because the status is no longer pending. -/
theorem invitation_roundtrip
    (coreEmail : String) (inviter : Identity) (email : String)
    (perms : Option (List PagePermission)) (tok invId : String)
    (accepter : Identity) (nm ph : Option String) (subId : String)
    (now0 now1 now2 now3 : Nat) (st : TeamState)
    (hLow : toLowerStr email = email)
    (hNotCore : email ≠ toLowerStr coreEmail)
    (hNoSub : ∀ s ∈ st.subAdmins, s.email ≠ email)
    (hNoPend : ∀ i ∈ st.invitations, ¬ (i.email = email ∧ i.status = .pending))
    (hTokFresh : ∀ i ∈ st.invitations, i.token ≠ tok)
    (hIdFresh : ∀ i ∈ st.invitations, i.id ≠ invId)
    (hT1 : ¬ (getExpirationDate now0 7 < now1))
    (hT2 : ¬ (getExpirationDate now0 7 < now2))
    (hAccEmail : toLowerStr accepter.email = email) :
    ∃ inv sub,
      inviteSubAdmin coreEmail inviter email perms tok invId now0 st
        = (.created inv, { st with invitations := st.invitations ++ [inv] })
      ∧ inv.email = email ∧ inv.token = tok
      ∧ inv.pagePermissions = perms.getD defaultViewPermissions
      ∧ verifyInvitation tok now1 { st with invitations := st.invitations ++ [inv] }
          = (.ok inv.email inv.invitedByEmail inv.expiresAt inv.pagePermissions,
             { st with invitations := st.invitations ++ [inv] })
      ∧ (acceptInvitation tok accepter nm ph subId now2
           { st with invitations := st.invitations ++ [inv] }).1 = .accepted sub
      ∧ sub.email = email ∧ sub.isActive = true
      ∧ sub.pagePermissions = inv.pagePermissions
      ∧ (acceptInvitation tok accepter nm ph subId now2
           { st with invitations := st.invitations ++ [inv] }).2.subAdmins
          = st.subAdmins ++ [sub]
      ∧ (∀ i ∈ (acceptInvitation tok accepter nm ph subId now2
           { st with invitations := st.invitations ++ [inv] }).2.invitations,
           i.token = tok → i.status = .accepted)
      ∧ acceptInvitation tok accepter nm ph subId now3
          (acceptInvitation tok accepter nm ph subId now2
            { st with invitations := st.invitations ++ [inv] }).2
          = (.notFound,
             (acceptInvitation tok accepter nm ph subId now2
               { st with invitations := st.invitations ++ [inv] }).2) := by
  have h1 : st.subAdmins.any (fun s => decide (s.email = email)) = false := by
    simp only [List.any_eq_false, decide_eq_true_eq]
    exact hNoSub
  have h2 : st.invitations.any
      (fun i => decide (i.email = email ∧ i.status = .pending)) = false := by
    simp only [List.any_eq_false, decide_eq_true_eq]
    exact hNoPend
  have hfail : ∀ a ∈ st.invitations,
      (fun i => decide (i.token = tok ∧ i.status = InvitationStatus.pending)) a = false :=
    fun a ha => by simp [hTokFresh a ha]
  have hfind1 : (st.invitations ++ [mkInvitation inviter email perms tok invId now0]).find?
      (fun i => decide (i.token = tok ∧ i.status = .pending))
      = some (mkInvitation inviter email perms tok invId now0) := by
    rw [find?_append_singleton _ _ _ hfail]
    simp [mkInvitation]
  have hT1' : ¬ ((mkInvitation inviter email perms tok invId now0).expiresAt < now1) := hT1
  have hT2' : ¬ ((mkInvitation inviter email perms tok invId now0).expiresAt < now2) := hT2
  have hmail : toLowerStr accepter.email
      = toLowerStr ((mkInvitation inviter email perms tok invId now0).email) := by
    rw [hAccEmail]
    exact (hLow).symm
  have hacc : acceptInvitation tok accepter nm ph subId now2
      { st with invitations := st.invitations ++ [mkInvitation inviter email perms tok invId now0] }
      = (.accepted (mkSubAdmin accepter nm ph (mkInvitation inviter email perms tok invId now0) subId now2),
         { invitations := (st.invitations ++ [mkInvitation inviter email perms tok invId now0]).map
             (fun i => if i.id = (mkInvitation inviter email perms tok invId now0).id then { i with status := .accepted, acceptedAt := some now2 } else i),
           subAdmins := st.subAdmins ++ [mkSubAdmin accepter nm ph (mkInvitation inviter email perms tok invId now0) subId now2] }) := by
    simp only [acceptInvitation, hfind1]
    rw [if_neg hT2', if_neg (not_not_intro hmail)]
  refine ⟨mkInvitation inviter email perms tok invId now0,
          mkSubAdmin accepter nm ph (mkInvitation inviter email perms tok invId now0) subId now2,
          ?_, rfl, rfl, rfl, ?_, ?_, ?_, rfl, rfl, ?_, ?_, ?_⟩
  · -- invite
    simp only [inviteSubAdmin]
    rw [hLow, if_neg hNotCore]
    simp [h1, h2]
    intro x hx hmail2 hpend2
    exact hNoPend x hx ⟨hmail2, hpend2⟩
  · -- verify
    simp only [verifyInvitation, hfind1]
    rw [if_neg hT1']
  · -- accept result
    rw [hacc]
  · -- accepter email on the created profile
    simp [mkSubAdmin, hAccEmail]
  · -- subAdmins after accept
    rw [hacc]
  · -- invitation flipped to accepted
    intro i hi htok
    rw [hacc] at hi
    obtain ⟨a, ha, rfl⟩ := List.mem_map.mp hi
    rcases List.mem_append.mp ha with h | h
    · have hfa : (if a.id = (mkInvitation inviter email perms tok invId now0).id
          then { a with status := InvitationStatus.accepted, acceptedAt := some now2 }
          else a) = a :=
        if_neg (by simpa [mkInvitation] using hIdFresh a h)
      rw [hfa] at htok
      exact absurd htok (hTokFresh a h)
    · have ha' : a = mkInvitation inviter email perms tok invId now0 :=
        List.mem_singleton.mp h
      subst ha'
      simp
  · -- second accept fails with NotFound
    rw [hacc]
    have hfind2 : ((st.invitations ++ [mkInvitation inviter email perms tok invId now0]).map
        (fun i => if i.id = (mkInvitation inviter email perms tok invId now0).id then { i with status := InvitationStatus.accepted, acceptedAt := some now2 } else i)).find?
        (fun i => decide (i.token = tok ∧ i.status = .pending)) = none := by
      apply List.find?_eq_none.mpr
      intro x hx
      obtain ⟨a, ha, rfl⟩ := List.mem_map.mp hx
      rcases List.mem_append.mp ha with h | h
      · have hfa : (if a.id = (mkInvitation inviter email perms tok invId now0).id
            then { a with status := InvitationStatus.accepted, acceptedAt := some now2 }
            else a) = a :=
          if_neg (by simpa [mkInvitation] using hIdFresh a h)
        rw [hfa]
        simp [hTokFresh a h]
      · have ha' : a = mkInvitation inviter email perms tok invId now0 :=
          List.mem_singleton.mp h
        subst ha'
        simp
    simp only [acceptInvitation, hfind2]

/-- Witness for C6: the full round-trip from an empty team state. -/
theorem invitation_roundtrip_witness :
    ∃ inv sub,
      inviteSubAdmin "core@y.com" { uid := "c", email := "core@y.com" } "x@y.com"
          none "tokr" "invr" 0 emptyTeam
        = (.created inv, { emptyTeam with invitations := emptyTeam.invitations ++ [inv] })
      ∧ inv.email = "x@y.com" ∧ inv.token = "tokr"
      ∧ inv.pagePermissions = (none : Option (List PagePermission)).getD defaultViewPermissions
      ∧ verifyInvitation "tokr" 3 { emptyTeam with invitations := emptyTeam.invitations ++ [inv] }
          = (.ok inv.email inv.invitedByEmail inv.expiresAt inv.pagePermissions,
             { emptyTeam with invitations := emptyTeam.invitations ++ [inv] })
      ∧ (acceptInvitation "tokr" { uid := "x", email := "x@y.com" } none none "s9" 3
           { emptyTeam with invitations := emptyTeam.invitations ++ [inv] }).1 = .accepted sub
      ∧ sub.email = "x@y.com" ∧ sub.isActive = true
      ∧ sub.pagePermissions = inv.pagePermissions
      ∧ (acceptInvitation "tokr" { uid := "x", email := "x@y.com" } none none "s9" 3
           { emptyTeam with invitations := emptyTeam.invitations ++ [inv] }).2.subAdmins
          = emptyTeam.subAdmins ++ [sub]
      ∧ (∀ i ∈ (acceptInvitation "tokr" { uid := "x", email := "x@y.com" } none none "s9" 3
           { emptyTeam with invitations := emptyTeam.invitations ++ [inv] }).2.invitations,
           i.token = "tokr" → i.status = .accepted)
      ∧ acceptInvitation "tokr" { uid := "x", email := "x@y.com" } none none "s9" 4
          (acceptInvitation "tokr" { uid := "x", email := "x@y.com" } none none "s9" 3
            { emptyTeam with invitations := emptyTeam.invitations ++ [inv] }).2
          = (.notFound,
             (acceptInvitation "tokr" { uid := "x", email := "x@y.com" } none none "s9" 3
               { emptyTeam with invitations := emptyTeam.invitations ++ [inv] }).2) :=
  invitation_roundtrip "core@y.com" { uid := "c", email := "core@y.com" } "x@y.com"
    none "tokr" "invr" { uid := "x", email := "x@y.com" } none none "s9" 0 3 3 4 emptyTeam
    (by decide) (by decide) (by decide) (by decide) (by decide) (by decide)
    (by decide) (by decide) (by decide)

end Portfolio
